import Mathlib

/-!
Verification of the RustDoku6 core (src/model.rs) against its specification.

The data model and every operation below are shallow embeddings of the Rust
source in src/model.rs, translated definition by definition:

* `Cell`, `Grid`, `InputMode`, `GameState`, `Game` mirror the structs/enums.
* Machine integers are modelled as `Nat`/`Int`.  The `mistakes : u32` counter
  uses `saturating_add`, modelled by `min (m + 1) u32Max`.  The `i8`
  arithmetic inside `move_cursor` (`cursor as i8 + delta`) can overflow for
  extreme deltas; Rust overflow on plain `+` is a program error (a panic under
  the default debug profile), so `move_cursor` is modelled as returning
  `Option Game` and `none` exactly when the i8 addition leaves [-128, 127].
* The cursor is modelled as `Fin 6 × Fin 6`.  In the source it is a pair of
  `usize` that starts at (0,0) and is only ever written through `clamp(0,5)`,
  so membership in [0,5] is an invariant of every reachable state; encoding it
  in the type makes the grid indexing in `handle_input`/`clear_cell` total,
  exactly as it is in every reachable Rust state.
* The random number generator is modelled as an oracle: `fill_randomly`
  receives a stream `sh : Nat → List Nat` of candidate orderings (the source
  shuffles `[1,2,3,4,5,6]` before each cell, consuming rng state, modelled by
  the advancing index `t`), and carving receives an explicit list of random
  cell picks.  All theorems quantify over the oracle.
* `Grid.fill_randomly` in the source recurses once per empty cell; the
  embedding `fillFuel` makes that depth explicit as a fuel argument and the
  entry point passes 37, which always exceeds the depth the source recursion
  reaches (at most one level per empty cell of the 36).
  `fill_randomly_fuel_independent` below proves the result does not depend on
  the fuel once it exceeds `emptyCount g`, so the fueled function computes the
  source's total recursion.
* The carving loop (`while removed_count < target_removed`) draws from the rng
  until the quota is met; with an explicit finite list of picks the loop is
  modelled by `carve`, and `Game.new` yields `none` when the pick list is
  exhausted before the quota (with the real rng the loop simply keeps
  drawing) or when generation fails twice (the source `panic!`).
-/

/-- Mirrors `struct Cell` (model.rs lines 3-9): `value: Option<u8>`,
`is_fixed: bool`, `marks: [bool; 6]`. -/
structure Cell where
  value : Option Nat
  is_fixed : Bool
  marks : Fin 6 → Bool
deriving DecidableEq

/-- `Cell::default()`: all fields zeroed. -/
def Cell.default : Cell := { value := none, is_fixed := false, marks := fun _ => false }

/-- Mirrors `enum InputMode` (model.rs lines 12-16). -/
inductive InputMode where
  | Normal
  | Pencil
deriving DecidableEq

/-- Mirrors `enum GameState` (model.rs lines 18-22). -/
inductive GameState where
  | Playing
  | Won
  | About
deriving DecidableEq

/-- Mirrors `struct Grid` (model.rs lines 24-26): a 6x6 matrix of cells. -/
structure Grid where
  cells : Fin 6 → Fin 6 → Cell
deriving DecidableEq

/-- `Grid::new()` (model.rs lines 31-35): all cells default. -/
def Grid.new : Grid := ⟨fun _ _ => Cell.default⟩

/-- Pointwise cell update, modelling `self.cells[r][c] = ...`. -/
def Grid.setCell (g : Grid) (r c : Fin 6) (cell : Cell) : Grid :=
  ⟨fun r' c' => if r' = r ∧ c' = c then cell else g.cells r' c'⟩

/-- The body of the repeated pattern
`if let Some(v) = cell.value { if v == value { return false } }`:
`true` iff the cell holds exactly `value`. -/
def cellConflicts (cell : Cell) (value : Nat) : Bool :=
  match cell.value with
  | some v => v == value
  | none => false

/-- Mirrors `Grid::is_valid_move` (model.rs lines 63-108).  The three
conjuncts are the row loop (`for c in 0..6`, skipping `col`), the column loop
(`for r in 0..6`, skipping `row`), and the 2x3 region loop.  The source
iterates the region as `start_row..start_row+2` x `start_col..start_col+3`
with `start_row = (row/2)*2`, `start_col = (col/3)*3`; a cell (r,c) lies in
that range iff `r/2 = row/2 ∧ c/3 = col/3`, which is how the filter below
enumerates exactly the same cells. -/
def Grid.is_valid_move (g : Grid) (row col : Fin 6) (value : Nat) : Bool :=
  ((List.finRange 6).all fun c =>
    if c = col then true else !cellConflicts (g.cells row c) value) &&
  ((List.finRange 6).all fun r =>
    if r = row then true else !cellConflicts (g.cells r col) value) &&
  ((List.finRange 6).all fun r => (List.finRange 6).all fun c =>
    if r.val / 2 = row.val / 2 ∧ c.val / 3 = col.val / 3 ∧ ¬(r = row ∧ c = col)
    then !cellConflicts (g.cells r c) value else true)

/-- Mirrors `Grid::is_full` (model.rs lines 110-119). -/
def Grid.is_full (g : Grid) : Bool :=
  (List.finRange 6).all fun r => (List.finRange 6).all fun c =>
    ((g.cells r c).value).isSome

/-- Mirrors `Grid::is_solved` (model.rs lines 122-137): full, and every cell's
value passes `is_valid_move` against the rest of the board.  The `none` branch
is unreachable when the grid is full (the source uses `expect` there). -/
def Grid.is_solved (g : Grid) : Bool :=
  g.is_full &&
  ((List.finRange 6).all fun r => (List.finRange 6).all fun c =>
    match (g.cells r c).value with
    | some v => g.is_valid_move r c v
    | none => true)

/-- Two coordinates lie in a common constraint group: same row, same column,
or same 2x3 region (regions are the blocks with equal `r/2` and `c/3`). -/
def sameGroup (r c r' c' : Fin 6) : Prop :=
  r = r' ∨ c = c' ∨ (r.val / 2 = r'.val / 2 ∧ c.val / 3 = c'.val / 3)

instance (r c r' c' : Fin 6) : Decidable (sameGroup r c r' c') := by
  unfold sameGroup; infer_instance

/-- The validity invariant in the spec's words: for any two distinct cells
sharing a row, a column, or a region, if both have a value the values differ.
(Stated with `Option` equality: a filled cell's value differs from the other
cell's content.) -/
def SpecValid (g : Grid) : Prop :=
  ∀ r c r' c' : Fin 6, sameGroup r c r' c' → (r, c) ≠ (r', c') →
    ((g.cells r c).value).isSome = true →
    (g.cells r c).value ≠ (g.cells r' c').value

instance (g : Grid) : Decidable (SpecValid g) := by
  unfold SpecValid; infer_instance

/-- Row-major list of all 36 coordinates, the order of the
`for r in 0..6 { for c in 0..6 { ... } }` scans in the source. -/
def allPos : List (Fin 6 × Fin 6) :=
  (List.finRange 6).flatMap fun r => (List.finRange 6).map fun c => (r, c)

/-- The row-major scan for the first empty cell at the top of
`fill_randomly` (model.rs lines 42-44). -/
def firstEmpty (g : Grid) : Option (Fin 6 × Fin 6) :=
  allPos.find? fun p => ((g.cells p.1 p.2).value).isNone

/-- Number of empty cells, counted over all 36 coordinates. -/
def emptyCount (g : Grid) : Nat :=
  (Finset.univ.filter fun p : Fin 6 × Fin 6 => (g.cells p.1 p.2).value = none).card

/-- Number of filled cells. -/
def filledCount (g : Grid) : Nat :=
  (Finset.univ.filter fun p : Fin 6 × Fin 6 => ((g.cells p.1 p.2).value).isSome = true).card

/-- Every filled cell holds a digit in 1..6 (true of generator output, whose
candidates come from shuffles of `[1,2,3,4,5,6]`). -/
def cellsInRange (g : Grid) : Prop :=
  ∀ r c : Fin 6, ∀ v : Nat, (g.cells r c).value = some v → 1 ≤ v ∧ v ≤ 6

/-- Candidate loop of `fill_randomly` (model.rs lines 46-54): try each digit
of the shuffled list in order; on a valid placement recurse via `recur` (the
next level of `fill_randomly`), undoing the placement (the grid passed to the
remaining candidates is the unmodified `g`) when recursion fails.  `t` is the
rng position, advanced by the failed recursive calls exactly as the shared rng
is in the source. -/
def tryCands (recur : Grid → Nat → Option Grid × Nat) (g : Grid) (r c : Fin 6) :
    List Nat → Nat → Option Grid × Nat
  | [], t => (none, t)
  | n :: rest, t =>
    if g.is_valid_move r c n then
      match recur (g.setCell r c { g.cells r c with value := some n }) t with
      | (some gg, t') => (some gg, t')
      | (none, t') => tryCands recur g r c rest t'
    else tryCands recur g r c rest t

/-- `Grid::fill_randomly` (model.rs lines 38-60) with explicit recursion
depth `fuel` and rng oracle `sh` (the shuffled candidate list consumed at rng
position `t`).  Scans for the first empty cell in row-major order; none left
means success with the current grid. -/
def fillFuel : Nat → Grid → (Nat → List Nat) → Nat → Option Grid × Nat
  | 0, _, _, t => (none, t)
  | fuel + 1, g, sh, t =>
    match firstEmpty g with
    | none => (some g, t)
    | some (r, c) => tryCands (fun g' t' => fillFuel fuel g' sh t') g r c (sh t) (t + 1)

/-- Entry point for `Grid::fill_randomly`: the source recursion enters one
level per empty cell, so `emptyCount g + 1 ≤ 37` levels always suffice
(`fill_randomly_fuel_independent` below makes this exact: every fuel above
`emptyCount g` computes the same result). -/
def Grid.fill_randomly (g : Grid) (sh : Nat → List Nat) (t : Nat) :
    Option Grid × Nat :=
  fillFuel 37 g sh t

/-- u32::MAX, the saturation bound of the `mistakes` counter. -/
def u32Max : Nat := 4294967295

/-- Mirrors `struct Game` (model.rs lines 140-147).  `solution: [[u8; 6]; 6]`
is a function to `Nat`; the cursor is a pair of coordinates (see the header
comment for why it carries the [0,5] invariant in its type). -/
structure Game where
  grid : Grid
  solution : Fin 6 → Fin 6 → Nat
  cursor : Fin 6 × Fin 6
  state : GameState
  mode : InputMode
  mistakes : Nat
deriving DecidableEq

/-- Mirrors `Game::is_correct_move` (model.rs lines 214-216). -/
def Game.is_correct_move (g : Game) (row col : Fin 6) (value : Nat) : Bool :=
  g.solution row col == value

/-- `.clamp(0, 5)` on the i8 intermediate, followed by `as usize`; the result
provably lies in [0,5]. -/
def clampFin (x : Int) : Fin 6 :=
  ⟨(min (max x 0) 5).toNat, by omega⟩

/-- Mirrors `Game::move_cursor` (model.rs lines 218-222):
`(cursor as i8 + d).clamp(0,5) as usize` for each coordinate.  The sum
`cursor as i8 + d` is an i8 addition that overflows when the mathematical sum
leaves [-128, 127]; overflow of plain `+` is a Rust program error (a panic
under the default debug profile), modelled here as `none`. -/
def Game.move_cursor (g : Game) (dr dc : Int) : Option Game :=
  let sr : Int := (g.cursor.1.val : Int) + dr
  let sc : Int := (g.cursor.2.val : Int) + dc
  if -128 ≤ sr ∧ sr ≤ 127 ∧ -128 ≤ sc ∧ sc ≤ 127 then
    some { g with cursor := (clampFin sr, clampFin sc) }
  else
    none

/-- Mirrors `Game::handle_input` (model.rs lines 224-259). -/
def Game.handle_input (g : Game) (num : Nat) : Game :=
  if ¬(1 ≤ num ∧ num ≤ 6) then g
  else
    let r := g.cursor.1
    let c := g.cursor.2
    if (g.grid.cells r c).is_fixed then g
    else
      match g.mode with
      | InputMode.Normal =>
        let newMistakes :=
          if g.is_correct_move r c num then g.mistakes
          else min (g.mistakes + 1) u32Max
        let newGrid := g.grid.setCell r c
          { g.grid.cells r c with value := some num, marks := fun _ => false }
        { g with
          grid := newGrid
          mistakes := newMistakes
          state := if newGrid.is_solved then GameState.Won else g.state }
      | InputMode.Pencil =>
        { g with grid := (g.grid.setCell r c
          { g.grid.cells r c with marks := fun i =>
              if i.val = num - 1 then !(g.grid.cells r c).marks i
              else (g.grid.cells r c).marks i }) }

/-- Mirrors `Game::toggle_mode` (model.rs lines 261-266). -/
def Game.toggle_mode (g : Game) : Game :=
  { g with mode := match g.mode with
    | InputMode.Normal => InputMode.Pencil
    | InputMode.Pencil => InputMode.Normal }

/-- Mirrors `Game::clear_cell` (model.rs lines 268-275). -/
def Game.clear_cell (g : Game) : Game :=
  let r := g.cursor.1
  let c := g.cursor.2
  if (g.grid.cells r c).is_fixed then g
  else { g with grid := (g.grid.setCell r c
    { g.grid.cells r c with value := none, marks := fun _ => false }) }

/-- Step 2 of `Game::new` (model.rs lines 170-176): snapshot every value into
`solution`.  The source `expect` cannot fire because generation succeeded and
left the grid full; `getD 0` is the total rendering of that access. -/
def mkSolution (g : Grid) : Fin 6 → Fin 6 → Nat :=
  fun r c => ((g.cells r c).value).getD 0

/-- Step 3 of `Game::new` (model.rs lines 178-185): mark all filled cells
fixed. -/
def markFixed (g : Grid) : Grid :=
  ⟨fun r c =>
    if ((g.cells r c).value).isSome then { g.cells r c with is_fixed := true }
    else g.cells r c⟩

/-- Step 4 of `Game::new` (model.rs lines 187-201): the carving loop.  Each
pick `(r, c)` is one `rng.random_range` draw; while `removed_count < 20`, a
pick that hits a filled cell clears it (`value = None`, `is_fixed = false`)
and counts, and a pick that hits an already-empty cell is discarded without
counting.  Returns the carved grid and the final `removed_count`. -/
def carve : List (Fin 6 × Fin 6) → Grid → Nat → Grid × Nat
  | [], g, n => (g, n)
  | p :: rest, g, n =>
    if n < 20 then
      if ((g.cells p.1 p.2).value).isSome then
        carve rest
          (g.setCell p.1 p.2 { g.cells p.1 p.2 with value := none, is_fixed := false })
          (n + 1)
      else carve rest g n
    else (g, n)

/-- Steps 2-4 of `Game::new` from a successfully generated grid: snapshot the
solution, mark everything fixed, carve.  Yields `none` when the pick list is
exhausted before the removal quota of 20 is met (the source's `while` loop
would keep drawing from the rng instead). -/
def Game.finish (g : Grid) (picks : List (Fin 6 × Fin 6)) : Option Game :=
  match carve picks (markFixed g) 0 with
  | (g2, n) =>
    if n = 20 then
      some { grid := g2, solution := mkSolution g, cursor := (0, 0),
             state := GameState.Playing, mode := InputMode.Normal, mistakes := 0 }
    else none

/-- Mirrors `Game::new` (model.rs lines 150-211): generate a full board from a
fresh grid, retrying once on failure and treating a second failure as fatal
(the source `panic!`, modelled as `none`); then snapshot, fix, and carve. -/
def Game.new (sh : Nat → List Nat) (t : Nat) (picks : List (Fin 6 × Fin 6)) :
    Option Game :=
  match Grid.new.fill_randomly sh t with
  | (some g, _) => Game.finish g picks
  | (none, t') =>
    match Grid.new.fill_randomly sh t' with
    | (some g, _) => Game.finish g picks
    | (none, _) => none

/-- A cell is filled exactly when it is marked fixed (the state of the board
right after construction). -/
def FixedIffSome (g : Grid) : Prop :=
  ∀ r c : Fin 6, ((g.cells r c).value).isSome = true ↔ (g.cells r c).is_fixed = true

instance (g : Grid) : Decidable (FixedIffSome g) := by
  unfold FixedIffSome; infer_instance

/-- A game as produced by some run of `Game::new` (some rng oracle). -/
def IsInitialGame (g : Game) : Prop :=
  ∃ (sh : Nat → List Nat) (t : Nat) (picks : List (Fin 6 × Fin 6)),
    Game.new sh t picks = some g

/-- States reachable from `Game::new` through the public mutation API. -/
inductive Reachable : Game → Prop
  | init (g : Game) : IsInitialGame g → Reachable g
  | move (g g' : Game) (dr dc : Int) :
      Reachable g → g.move_cursor dr dc = some g' → Reachable g'
  | input (g : Game) (num : Nat) : Reachable g → Reachable (g.handle_input num)
  | clear (g : Game) : Reachable g → Reachable g.clear_cell
  | toggle (g : Game) : Reachable g → Reachable g.toggle_mode

/-- The fixed-implies-filled half of the cell invariant, as a predicate on
game states. -/
def FixedValuePresent (g : Game) : Prop :=
  ∀ r c : Fin 6, (g.grid.cells r c).is_fixed = true →
    ((g.grid.cells r c).value).isSome = true

/-- A concrete valid solved board (rows listed top to bottom), used to
instantiate theorems at explicit inputs. -/
def Tlist : List (List Nat) :=
  [[1, 2, 3, 4, 5, 6],
   [4, 5, 6, 1, 2, 3],
   [2, 3, 1, 5, 6, 4],
   [5, 6, 4, 2, 3, 1],
   [3, 1, 2, 6, 4, 5],
   [6, 4, 5, 3, 1, 2]]

def Tval (r c : Fin 6) : Nat := (Tlist.getD r.val []).getD c.val 0

/-- The digits of `Tlist` in row-major order: the candidate the generator
needs at each successive cell when filling an empty grid. -/
def digitsT : List Nat :=
  [1, 2, 3, 4, 5, 6, 4, 5, 6, 1, 2, 3, 2, 3, 1, 5, 6, 4,
   5, 6, 4, 2, 3, 1, 3, 1, 2, 6, 4, 5, 6, 4, 5, 3, 1, 2]

/-- A concrete shuffle oracle: at rng position t the candidate list is the
single correct digit for the t-th cell, so generation runs without
backtracking. -/
def shO : Nat → List Nat := fun t => [digitsT.getD t 1]

/-- A concrete pick oracle for carving: the first 20 cells in row-major
order, leaving rows 3 (from column 2) through 5 filled. -/
def picksO : List (Fin 6 × Fin 6) :=
  [(0, 0), (0, 1), (0, 2), (0, 3), (0, 4), (0, 5),
   (1, 0), (1, 1), (1, 2), (1, 3), (1, 4), (1, 5),
   (2, 0), (2, 1), (2, 2), (2, 3), (2, 4), (2, 5),
   (3, 0), (3, 1)]

def gameDefault : Game :=
  { grid := Grid.new, solution := fun _ _ => 0, cursor := (0, 0),
    state := GameState.Playing, mode := InputMode.Normal, mistakes := 0 }

/-- The game built by `Game::new` under the concrete oracles. -/
def gameW : Game := (Game.new shO 0 picksO).getD gameDefault

/-- `gameW` after one cursor move to (1,1). -/
def gameW2 : Game := (gameW.move_cursor 1 1).getD gameDefault

/-- `gameW` after entering 1 at the empty non-fixed cell (0,0) in Normal
mode, switching to Pencil mode, and pressing 1 again. -/
def gameW3 : Game := ((gameW.handle_input 1).toggle_mode).handle_input 1

/-- The board `Tlist` as a fully-filled grid with no fixed cells. -/
def gFullT : Grid :=
  ⟨fun r c => { value := some (Tval r c), is_fixed := false, marks := fun _ => false }⟩

/-- A full but thoroughly invalid grid: every cell holds 9. -/
def gBad : Grid :=
  ⟨fun _ _ => { value := some 9, is_fixed := false, marks := fun _ => false }⟩

/-- `gFullT` with the (0,0) cell emptied; no fixed cells. -/
def gridX : Grid :=
  ⟨fun r c =>
    { value := if r = 0 ∧ c = 0 then none else some (Tval r c),
      is_fixed := false, marks := fun _ => false }⟩

/-- A game state whose stored solution disagrees with the only valid
completion of its board. -/
def gameX : Game :=
  { grid := gridX, solution := fun _ _ => 9, cursor := (0, 0),
    state := GameState.Playing, mode := InputMode.Normal, mistakes := 0 }

/-- `gameX` with the mistakes counter already saturated at u32::MAX. -/
def gameY : Game := { gameX with mistakes := u32Max }

/-- `gameX` with the cursor at the bottom-right corner. -/
def gameZ : Game := { gameX with cursor := (5, 5) }

/-- A Pencil-mode game over the full board `gFullT` (so the cursor cell
already holds a value). -/
def gameP : Game :=
  { grid := gFullT, solution := Tval, cursor := (0, 0),
    state := GameState.Playing, mode := InputMode.Pencil, mistakes := 0 }

theorem sameGroup_symm {r c r' c' : Fin 6} (h : sameGroup r c r' c') :
    sameGroup r' c' r c := by
  rcases h with h | h | h
  · exact Or.inl h.symm
  · exact Or.inr (Or.inl h.symm)
  · exact Or.inr (Or.inr ⟨h.1.symm, h.2.symm⟩)

theorem cellConflicts_eq_false {cell : Cell} {v : Nat} :
    cellConflicts cell v = false ↔ cell.value ≠ some v := by
  cases h : cell.value with
  | none => simp [cellConflicts, h]
  | some w => simp [cellConflicts, h]

/-- Characterization of `is_valid_move`: it succeeds iff no other cell in the
same row, column, or region holds `value`. -/
theorem is_valid_move_iff (g : Grid) (row col : Fin 6) (v : Nat) :
    g.is_valid_move row col v = true ↔
      ∀ r c : Fin 6, sameGroup row col r c → ¬(r = row ∧ c = col) →
        (g.cells r c).value ≠ some v := by
  unfold Grid.is_valid_move
  simp only [Bool.and_eq_true, List.all_eq_true, List.mem_finRange, true_implies]
  constructor
  · rintro ⟨⟨hrow, hcol⟩, hbox⟩ r c hg hne
    rcases hg with hg | hg | hg
    · subst hg
      have hc : ¬(c = col) := fun hc => hne ⟨rfl, hc⟩
      have := hrow c
      rw [if_neg hc, Bool.not_eq_true', cellConflicts_eq_false] at this
      exact this
    · subst hg
      have hr : ¬(r = row) := fun hr => hne ⟨hr, rfl⟩
      have := hcol r
      rw [if_neg hr, Bool.not_eq_true', cellConflicts_eq_false] at this
      exact this
    · have := hbox r c
      rw [if_pos ⟨hg.1.symm, hg.2.symm, hne⟩, Bool.not_eq_true',
        cellConflicts_eq_false] at this
      exact this
  · intro h
    refine ⟨⟨fun c => ?_, fun r => ?_⟩, fun r c => ?_⟩
    · by_cases hc : c = col
      · rw [if_pos hc]
      · rw [if_neg hc, Bool.not_eq_true', cellConflicts_eq_false]
        exact h row c (Or.inl rfl) (fun hh => hc hh.2)
    · by_cases hr : r = row
      · rw [if_pos hr]
      · rw [if_neg hr, Bool.not_eq_true', cellConflicts_eq_false]
        exact h r col (Or.inr (Or.inl rfl)) (fun hh => hr hh.1)
    · by_cases hcond : r.val / 2 = row.val / 2 ∧ c.val / 3 = col.val / 3 ∧
        ¬(r = row ∧ c = col)
      · rw [if_pos hcond, Bool.not_eq_true', cellConflicts_eq_false]
        exact h r c (Or.inr (Or.inr ⟨hcond.1.symm, hcond.2.1.symm⟩)) hcond.2.2
      · rw [if_neg hcond]

theorem mem_allPos (p : Fin 6 × Fin 6) : p ∈ allPos := by
  rcases p with ⟨r, c⟩
  simp [allPos]

theorem is_full_of_firstEmpty_none {g : Grid} (h : firstEmpty g = none) :
    g.is_full = true := by
  unfold Grid.is_full
  simp only [List.all_eq_true, List.mem_finRange, true_implies]
  intro r c
  have := List.find?_eq_none.mp h (r, c) (mem_allPos (r, c))
  simpa [Option.isNone_iff_eq_none, Option.isSome_iff_ne_none] using this

theorem firstEmpty_some_empty {g : Grid} {r c : Fin 6}
    (h : firstEmpty g = some (r, c)) : (g.cells r c).value = none := by
  have := List.find?_some h
  simpa [Option.isNone_iff_eq_none] using this

theorem filledCount_add_emptyCount (g : Grid) :
    filledCount g + emptyCount g = 36 := by
  classical
  unfold filledCount emptyCount
  have hc : (Finset.univ.filter fun p : Fin 6 × Fin 6 =>
      ((g.cells p.1 p.2).value).isSome = true) =
      (Finset.univ.filter fun p : Fin 6 × Fin 6 =>
      ¬((g.cells p.1 p.2).value = none)) := by
    apply Finset.filter_congr
    intro p _
    simp [Option.isSome_iff_ne_none]
  rw [hc, add_comm]
  rw [Finset.filter_card_add_filter_neg_card_eq_card]
  decide

theorem emptyCount_eq_zero_of_full {g : Grid} (h : g.is_full = true) :
    emptyCount g = 0 := by
  unfold Grid.is_full at h
  simp only [List.all_eq_true, List.mem_finRange, true_implies] at h
  unfold emptyCount
  rw [Finset.card_eq_zero, Finset.filter_eq_empty_iff]
  intro p _
  have := h p.1 p.2
  simp [Option.isSome_iff_ne_none] at this
  exact this

/-- Setting an empty cell to a filled one lowers `emptyCount` by one. -/
theorem emptyCount_setCell_fill {g : Grid} {r c : Fin 6} {cell : Cell}
    (hold : (g.cells r c).value = none) (hnew : (cell.value).isSome = true) :
    emptyCount (g.setCell r c cell) + 1 = emptyCount g := by
  classical
  unfold emptyCount
  have hset : (Finset.univ.filter fun p : Fin 6 × Fin 6 =>
      ((g.setCell r c cell).cells p.1 p.2).value = none) =
      (Finset.univ.filter fun p : Fin 6 × Fin 6 =>
        (g.cells p.1 p.2).value = none).erase (r, c) := by
    apply Finset.ext
    intro p
    rcases p with ⟨pr, pc⟩
    by_cases hp : pr = r ∧ pc = c
    · rcases hp with ⟨h1, h2⟩
      subst h1; subst h2
      simp [Grid.setCell, Finset.mem_erase]
      intro hval
      rw [hval] at hnew
      simp at hnew
    · simp only [Finset.mem_filter, Finset.mem_univ, true_and, Finset.mem_erase]
      constructor
      · intro hv
        refine ⟨?_, ?_⟩
        · intro he
          apply hp
          constructor
          · exact congrArg Prod.fst he
          · exact congrArg Prod.snd he
        · simpa [Grid.setCell, hp] using hv
      · intro ⟨_, hv⟩
        simpa [Grid.setCell, hp] using hv
  rw [hset]
  have hmem : (r, c) ∈ (Finset.univ.filter fun p : Fin 6 × Fin 6 =>
      (g.cells p.1 p.2).value = none) := by
    simp [hold]
  rw [Finset.card_erase_of_mem hmem]
  have : 1 ≤ (Finset.univ.filter fun p : Fin 6 × Fin 6 =>
      (g.cells p.1 p.2).value = none).card := Finset.card_pos.mpr ⟨(r, c), hmem⟩
  omega

/-- Clearing a filled cell raises `emptyCount` by one (used by carving). -/
theorem emptyCount_setCell_clear {g : Grid} {r c : Fin 6} {cell : Cell}
    (hold : ((g.cells r c).value).isSome = true) (hnew : cell.value = none) :
    emptyCount (g.setCell r c cell) = emptyCount g + 1 := by
  classical
  unfold emptyCount
  have hset : (Finset.univ.filter fun p : Fin 6 × Fin 6 =>
      ((g.setCell r c cell).cells p.1 p.2).value = none) =
      insert (r, c) (Finset.univ.filter fun p : Fin 6 × Fin 6 =>
        (g.cells p.1 p.2).value = none) := by
    apply Finset.ext
    intro p
    rcases p with ⟨pr, pc⟩
    by_cases hp : pr = r ∧ pc = c
    · rcases hp with ⟨h1, h2⟩
      subst h1; subst h2
      simp [Grid.setCell, hnew]
    · simp only [Finset.mem_filter, Finset.mem_univ, true_and, Finset.mem_insert]
      have hpne : ((pr, pc) : Fin 6 × Fin 6) ≠ (r, c) := by
        intro he
        exact hp ⟨congrArg Prod.fst he, congrArg Prod.snd he⟩
      constructor
      · intro hv
        exact Or.inr (by simpa [Grid.setCell, hp] using hv)
      · rintro (he | hv)
        · exact absurd he hpne
        · simpa [Grid.setCell, hp] using hv
  rw [hset, Finset.card_insert_of_not_mem]
  simp only [Finset.mem_filter, Finset.mem_univ, true_and]
  intro hval
  rw [hval] at hold
  simp at hold

/-- Characterization of `is_solved` used by C2: solved iff full and the
spec's pairwise validity invariant holds. -/
theorem is_solved_iff_full_and_specValid (g : Grid) :
    g.is_solved = true ↔ g.is_full = true ∧ SpecValid g := by
  unfold Grid.is_solved
  simp only [Bool.and_eq_true, List.all_eq_true, List.mem_finRange, true_implies]
  constructor
  · rintro ⟨hfull, hvalid⟩
    refine ⟨hfull, ?_⟩
    intro r c r' c' hg hne hsome
    rcases hv : (g.cells r c).value with _ | v
    · rw [hv] at hsome; simp at hsome
    have := hvalid r c
    rw [hv] at this
    have hmove := (is_valid_move_iff g r c v).mp this r' c' hg
      (by
        intro hh
        apply hne
        rw [hh.1, hh.2])
    intro heq
    exact hmove (heq ▸ hv ▸ rfl)
  · rintro ⟨hfull, hvalid⟩
    refine ⟨hfull, ?_⟩
    intro r c
    rcases hv : (g.cells r c).value with _ | v
    · simp
    rw [is_valid_move_iff]
    intro r' c' hg hne heq
    have hne' : ((r, c) : Fin 6 × Fin 6) ≠ (r', c') := by
      intro hh
      exact hne ⟨(congrArg Prod.fst hh).symm, (congrArg Prod.snd hh).symm⟩
    have := hvalid r c r' c' hg hne' (by rw [hv]; rfl)
    rw [hv, heq] at this
    exact this rfl

/-- Placing a value that passes `is_valid_move` into a cell preserves the
validity invariant. -/
theorem specValid_setCell {g : Grid} {r c : Fin 6} {n : Nat} {cell : Cell}
    (hv : g.is_valid_move r c n = true) (hval : SpecValid g)
    (hcell : cell.value = some n) : SpecValid (g.setCell r c cell) := by
  intro r1 c1 r2 c2 hg hne hsome
  have hchar := (is_valid_move_iff g r c n).mp hv
  by_cases h1 : r1 = r ∧ c1 = c
  · by_cases h2 : r2 = r ∧ c2 = c
    · exfalso
      apply hne
      rw [h1.1, h1.2, h2.1, h2.2]
    · have e1 : (g.setCell r c cell).cells r1 c1 = cell := by
        simp [Grid.setCell, h1]
      have e2 : (g.setCell r c cell).cells r2 c2 = g.cells r2 c2 := by
        simp [Grid.setCell, h2]
      rw [e1, e2, hcell]
      have hgroup : sameGroup r c r2 c2 := by
        rw [← h1.1, ← h1.2]
        exact hg
      exact fun he => hchar r2 c2 hgroup h2 he.symm
  · by_cases h2 : r2 = r ∧ c2 = c
    · have e1 : (g.setCell r c cell).cells r1 c1 = g.cells r1 c1 := by
        simp [Grid.setCell, h1]
      have e2 : (g.setCell r c cell).cells r2 c2 = cell := by
        simp [Grid.setCell, h2]
      rw [e1, e2, hcell]
      have hgroup : sameGroup r c r1 c1 := by
        rw [← h2.1, ← h2.2]
        exact sameGroup_symm hg
      exact hchar r1 c1 hgroup h1
    · have e1 : (g.setCell r c cell).cells r1 c1 = g.cells r1 c1 := by
        simp [Grid.setCell, h1]
      have e2 : (g.setCell r c cell).cells r2 c2 = g.cells r2 c2 := by
        simp [Grid.setCell, h2]
      rw [e1, e2]
      rw [e1] at hsome
      exact hval r1 c1 r2 c2 hg hne hsome

theorem cellsInRange_setCell {g : Grid} {r c : Fin 6} {n : Nat} {cell : Cell}
    (hrange : cellsInRange g) (hn : 1 ≤ n ∧ n ≤ 6) (hcell : cell.value = some n) :
    cellsInRange (g.setCell r c cell) := by
  intro r1 c1 v hv
  by_cases h1 : r1 = r ∧ c1 = c
  · have e1 : (g.setCell r c cell).cells r1 c1 = cell := by
      simp [Grid.setCell, h1]
    rw [e1, hcell] at hv
    cases hv
    exact hn
  · have e1 : (g.setCell r c cell).cells r1 c1 = g.cells r1 c1 := by
      simp [Grid.setCell, h1]
    rw [e1] at hv
    exact hrange r1 c1 v hv

/-- Soundness of the candidate loop, parametric in the recursive call. -/
theorem tryCands_sound
    (recur : Grid → Nat → Option Grid × Nat)
    (hrec : ∀ g t g' t', SpecValid g → cellsInRange g →
      recur g t = (some g', t') → g'.is_full = true ∧ SpecValid g' ∧ cellsInRange g') :
    ∀ (nums : List Nat) (g : Grid) (r c : Fin 6) (t : Nat) (g' : Grid) (t' : Nat),
      SpecValid g → cellsInRange g → (∀ n ∈ nums, 1 ≤ n ∧ n ≤ 6) →
      tryCands recur g r c nums t = (some g', t') →
      g'.is_full = true ∧ SpecValid g' ∧ cellsInRange g' := by
  intro nums
  induction nums with
  | nil =>
    intro g r c t g' t' _ _ _ h
    simp [tryCands] at h
  | cons n rest ih =>
    intro g r c t g' t' hval hrange hnums h
    rw [tryCands] at h
    by_cases hmove : g.is_valid_move r c n = true
    · rw [if_pos hmove] at h
      rcases hrec2 : recur (g.setCell r c { g.cells r c with value := some n }) t
        with ⟨og, t2⟩
      rw [hrec2] at h
      cases og with
      | some gg =>
        simp at h
        rcases h with ⟨h1, _⟩
        subst h1
        exact hrec _ t gg t2
          (specValid_setCell hmove hval rfl)
          (cellsInRange_setCell hrange (hnums n (List.mem_cons_self n rest)) rfl)
          hrec2
      | none =>
        exact ih g r c t2 g' t' hval hrange
          (fun m hm => hnums m (List.mem_cons_of_mem n hm)) h
    · rw [if_neg hmove] at h
      exact ih g r c t g' t' hval hrange
        (fun m hm => hnums m (List.mem_cons_of_mem n hm)) h

/-- Soundness of the fueled generator: a successful run from a grid whose
current contents satisfy the validity invariant (with digits in range) yields
a full grid satisfying the invariant with all digits in range. -/
theorem fillFuel_sound :
    ∀ (fuel : Nat) (g : Grid) (sh : Nat → List Nat) (t : Nat) (g' : Grid) (t' : Nat),
      SpecValid g → cellsInRange g → (∀ s : Nat, ∀ n ∈ sh s, 1 ≤ n ∧ n ≤ 6) →
      fillFuel fuel g sh t = (some g', t') →
      g'.is_full = true ∧ SpecValid g' ∧ cellsInRange g' := by
  intro fuel
  induction fuel with
  | zero =>
    intro g sh t g' t' _ _ _ h
    simp [fillFuel] at h
  | succ fuel ih =>
    intro g sh t g' t' hval hrange hsh h
    rw [fillFuel] at h
    rcases hfe : firstEmpty g with _ | ⟨r, c⟩
    · rw [hfe] at h
      simp at h
      rcases h with ⟨h1, _⟩
      subst h1
      exact ⟨is_full_of_firstEmpty_none hfe, hval, hrange⟩
    · rw [hfe] at h
      exact tryCands_sound (fun g' t' => fillFuel fuel g' sh t')
        (fun g2 t2 g3 t3 hv hr hrec => ih g2 sh t2 g3 t3 hv hr hsh hrec)
        (sh t) g r c (t + 1) g' t' hval hrange (hsh t) h

/-- The candidate loop only depends on the recursive call's behaviour at the
grids it actually passes down. -/
theorem tryCands_congr {recur1 recur2 : Grid → Nat → Option Grid × Nat}
    (g : Grid) (r c : Fin 6) (nums : List Nat)
    (h : ∀ n t', recur1 (g.setCell r c { g.cells r c with value := some n }) t'
               = recur2 (g.setCell r c { g.cells r c with value := some n }) t') :
    ∀ t, tryCands recur1 g r c nums t = tryCands recur2 g r c nums t := by
  induction nums with
  | nil => intro t; rfl
  | cons n rest ih =>
    intro t
    rw [tryCands, tryCands]
    by_cases hm : g.is_valid_move r c n = true
    · rw [if_pos hm, if_pos hm, ← h n t]
      rcases hr : recur1 (g.setCell r c { g.cells r c with value := some n }) t
        with ⟨og, t2⟩
      cases og with
      | some gg => rfl
      | none => exact ih t2
    · rw [if_neg hm, if_neg hm]
      exact ih t

theorem fillFuel_succ_eq :
    ∀ (fuel : Nat) (g : Grid) (sh : Nat → List Nat) (t : Nat),
      emptyCount g < fuel →
      fillFuel (fuel + 1) g sh t = fillFuel fuel g sh t := by
  intro fuel
  induction fuel with
  | zero =>
    intro g sh t h
    omega
  | succ k ih =>
    intro g sh t h
    rw [fillFuel, fillFuel]
    rcases hfe : firstEmpty g with _ | ⟨r, c⟩
    · simp only [hfe]
    · simp only [hfe]
      apply tryCands_congr
      intro n t'
      apply ih
      have hempty := firstEmpty_some_empty hfe
      have hdec := @emptyCount_setCell_fill g r c
        { g.cells r c with value := some n } hempty (by simp)
      omega

theorem emptyCount_le_36 (g : Grid) : emptyCount g ≤ 36 := by
  unfold emptyCount
  refine le_trans (Finset.card_filter_le _ _) ?_
  decide

theorem fillFuel_eq_of_lt :
    ∀ (fuel : Nat) (g : Grid) (sh : Nat → List Nat) (t : Nat),
      emptyCount g < fuel →
      fillFuel fuel g sh t = fillFuel (emptyCount g + 1) g sh t := by
  intro fuel
  induction fuel with
  | zero =>
    intro g sh t h
    omega
  | succ k ih =>
    intro g sh t h
    by_cases hk : emptyCount g = k
    · rw [hk]
    · have hlt : emptyCount g < k := by omega
      rw [fillFuel_succ_eq k g sh t hlt]
      exact ih g sh t hlt

/-- Faithfulness of the fueled embedding: any fuel exceeding the number of
empty cells (the source's recursion depth) computes the same result as the
entry point. -/
theorem fill_randomly_fuel_independent (fuel : Nat) (g : Grid)
    (sh : Nat → List Nat) (t : Nat) (h : emptyCount g < fuel) :
    fillFuel fuel g sh t = g.fill_randomly sh t := by
  rw [fillFuel_eq_of_lt fuel g sh t h]
  unfold Grid.fill_randomly
  rw [fillFuel_eq_of_lt 37 g sh t (by have := emptyCount_le_36 g; omega)]

theorem is_full_iff (g : Grid) :
    g.is_full = true ↔ ∀ r c : Fin 6, ((g.cells r c).value).isSome = true := by
  unfold Grid.is_full
  simp only [List.all_eq_true, List.mem_finRange, true_implies]

/-- Success of the candidate loop yields a full grid, with no assumption on
the candidate digits (parametric in the recursive call). -/
theorem tryCands_some_full
    (recur : Grid → Nat → Option Grid × Nat)
    (hrec : ∀ g t g' t', recur g t = (some g', t') → g'.is_full = true) :
    ∀ (nums : List Nat) (g : Grid) (r c : Fin 6) (t : Nat) (g' : Grid) (t' : Nat),
      tryCands recur g r c nums t = (some g', t') → g'.is_full = true := by
  intro nums
  induction nums with
  | nil =>
    intro g r c t g' t' h
    simp [tryCands] at h
  | cons n rest ih =>
    intro g r c t g' t' h
    rw [tryCands] at h
    by_cases hmove : g.is_valid_move r c n = true
    · rw [if_pos hmove] at h
      rcases hrec2 : recur (g.setCell r c { g.cells r c with value := some n }) t
        with ⟨og, t2⟩
      rw [hrec2] at h
      cases og with
      | some gg =>
        simp at h
        rcases h with ⟨h1, _⟩
        subst h1
        exact hrec _ t gg t2 hrec2
      | none => exact ih g r c t2 g' t' h
    · rw [if_neg hmove] at h
      exact ih g r c t g' t' h

/-- A successful generator run always ends with a full grid: the only success
exit is the row-major scan finding no empty cell. -/
theorem fillFuel_some_full :
    ∀ (fuel : Nat) (g : Grid) (sh : Nat → List Nat) (t : Nat) (g' : Grid) (t' : Nat),
      fillFuel fuel g sh t = (some g', t') → g'.is_full = true := by
  intro fuel
  induction fuel with
  | zero =>
    intro g sh t g' t' h
    simp [fillFuel] at h
  | succ fuel ih =>
    intro g sh t g' t' h
    rw [fillFuel] at h
    rcases hfe : firstEmpty g with _ | ⟨r, c⟩
    · rw [hfe] at h
      simp at h
      rcases h with ⟨h1, _⟩
      subst h1
      exact is_full_of_firstEmpty_none hfe
    · rw [hfe] at h
      exact tryCands_some_full (fun g' t' => fillFuel fuel g' sh t')
        (fun g2 t2 g3 t3 hrec => ih g2 sh t2 g3 t3 hrec)
        (sh t) g r c (t + 1) g' t' h

theorem markFixed_value (g : Grid) (r c : Fin 6) :
    ((markFixed g).cells r c).value = (g.cells r c).value := by
  unfold markFixed
  dsimp only
  split <;> rfl

theorem emptyCount_markFixed (g : Grid) :
    emptyCount (markFixed g) = emptyCount g := by
  unfold emptyCount
  apply congrArg
  apply Finset.filter_congr
  intro p _
  rw [markFixed_value]

theorem fixedIffSome_markFixed {g : Grid} (h : g.is_full = true) :
    FixedIffSome (markFixed g) := by
  intro r c
  have hsome := (is_full_iff g).mp h r c
  have hval : ((markFixed g).cells r c).is_fixed = true := by
    unfold markFixed
    dsimp only
    rw [if_pos hsome]
  rw [markFixed_value, hval]
  simp [hsome]

/-- The carving loop invariant: starting from a board where filled and fixed
coincide and the removal count equals the number of empty cells, every state
of the loop keeps that correspondence and never exceeds the quota. -/
theorem carve_invariant :
    ∀ (picks : List (Fin 6 × Fin 6)) (g : Grid) (n : Nat),
      FixedIffSome g → emptyCount g = n → n ≤ 20 →
      FixedIffSome (carve picks g n).1 ∧
      emptyCount (carve picks g n).1 = (carve picks g n).2 ∧
      (carve picks g n).2 ≤ 20 := by
  intro picks
  induction picks with
  | nil =>
    intro g n hfix hcount hle
    exact ⟨hfix, hcount, hle⟩
  | cons p rest ih =>
    intro g n hfix hcount hle
    rw [carve]
    by_cases hn : n < 20
    · rw [if_pos hn]
      by_cases hsome : ((g.cells p.1 p.2).value).isSome = true
      · rw [if_pos hsome]
        apply ih
        · intro r c
          by_cases hp : r = p.1 ∧ c = p.2
          · have e1 : ((g.setCell p.1 p.2
                { g.cells p.1 p.2 with value := none, is_fixed := false }).cells r c)
                = { g.cells p.1 p.2 with value := none, is_fixed := false } := by
              simp [Grid.setCell, hp]
            rw [e1]
            simp
          · have e1 : ((g.setCell p.1 p.2
                { g.cells p.1 p.2 with value := none, is_fixed := false }).cells r c)
                = g.cells r c := by
              simp [Grid.setCell, hp]
            rw [e1]
            exact hfix r c
        · rw [emptyCount_setCell_clear hsome rfl, hcount]
        · omega
      · rw [if_neg hsome]
        exact ih g n hfix hcount hle
    · rw [if_neg hn]
      exact ⟨hfix, hcount, hle⟩

/-- Postcondition of steps 2-4 of construction: a completed carve from a full
board leaves exactly 16 filled and 20 empty cells, with filled and fixed
coinciding, and the bookkeeping fields in their initial state. -/
theorem finish_spec {g : Grid} {picks : List (Fin 6 × Fin 6)} {game : Game}
    (hfull : g.is_full = true) (h : Game.finish g picks = some game) :
    filledCount game.grid = 16 ∧ emptyCount game.grid = 20 ∧
    FixedIffSome game.grid ∧ game.cursor = (0, 0) ∧
    game.state = GameState.Playing ∧ game.mode = InputMode.Normal ∧
    game.mistakes = 0 := by
  unfold Game.finish at h
  rcases hc : carve picks (markFixed g) 0 with ⟨g2, n⟩
  rw [hc] at h
  dsimp only at h
  by_cases hn : n = 20
  · rw [if_pos hn] at h
    have hinv := carve_invariant picks (markFixed g) 0
      (fixedIffSome_markFixed hfull)
      (by rw [emptyCount_markFixed]; exact emptyCount_eq_zero_of_full hfull)
      (by omega)
    rw [hc] at hinv
    simp only [Option.some.injEq] at h
    subst h
    have hempty : emptyCount g2 = 20 := by
      rw [hinv.2.1, hn]
    have hfilled : filledCount g2 = 16 := by
      have := filledCount_add_emptyCount g2
      omega
    exact ⟨hfilled, hempty, hinv.1, rfl, rfl, rfl, rfl⟩
  · rw [if_neg hn] at h
    simp at h

/-- Postcondition of `Game::new` itself: on success, the grid and bookkeeping
fields satisfy the carving postcondition. -/
theorem game_new_spec {sh : Nat → List Nat} {t : Nat}
    {picks : List (Fin 6 × Fin 6)} {game : Game}
    (h : Game.new sh t picks = some game) :
    filledCount game.grid = 16 ∧ emptyCount game.grid = 20 ∧
    FixedIffSome game.grid ∧ game.cursor = (0, 0) ∧
    game.state = GameState.Playing ∧ game.mode = InputMode.Normal ∧
    game.mistakes = 0 := by
  unfold Game.new at h
  rcases h1 : Grid.new.fill_randomly sh t with ⟨og, t1⟩
  rw [h1] at h
  cases og with
  | some g =>
    exact finish_spec (fillFuel_some_full 37 Grid.new sh t g t1 h1) h
  | none =>
    dsimp only at h
    rcases h2 : Grid.new.fill_randomly sh t1 with ⟨og2, t2⟩
    rw [h2] at h
    cases og2 with
    | some g =>
      exact finish_spec (fillFuel_some_full 37 Grid.new sh t1 g t2 h2) h
    | none => simp at h

theorem setCell_same (g : Grid) (r c : Fin 6) (cell : Cell) :
    (g.setCell r c cell).cells r c = cell := by
  simp [Grid.setCell]

theorem setCell_other (g : Grid) (r c : Fin 6) (cell : Cell) {r' c' : Fin 6}
    (h : ¬(r' = r ∧ c' = c)) : (g.setCell r c cell).cells r' c' = g.cells r' c' := by
  simp [Grid.setCell, h]

/-- `handle_input` ignores out-of-range digits and fixed cursor cells
(model.rs lines 226-233). -/
theorem handle_input_noop {g : Game} {num : Nat}
    (h : ¬(1 ≤ num ∧ num ≤ 6) ∨ (g.grid.cells g.cursor.1 g.cursor.2).is_fixed = true) :
    g.handle_input num = g := by
  unfold Game.handle_input
  rcases h with h | h
  · rw [if_pos h]
  · by_cases hr : ¬(1 ≤ num ∧ num ≤ 6)
    · rw [if_pos hr]
    · rw [if_neg hr]
      dsimp only
      rw [if_pos h]

/-- Explicit form of a Normal-mode entry (model.rs lines 236-251). -/
theorem handle_input_normal_eq {g : Game} {num : Nat}
    (h1 : 1 ≤ num ∧ num ≤ 6)
    (h2 : ¬(g.grid.cells g.cursor.1 g.cursor.2).is_fixed = true)
    (h3 : g.mode = InputMode.Normal) :
    g.handle_input num =
      { g with
        grid := g.grid.setCell g.cursor.1 g.cursor.2
          { g.grid.cells g.cursor.1 g.cursor.2 with
            value := some num, marks := fun _ => false }
        mistakes :=
          if g.is_correct_move g.cursor.1 g.cursor.2 num then g.mistakes
          else min (g.mistakes + 1) u32Max
        state :=
          if (g.grid.setCell g.cursor.1 g.cursor.2
              { g.grid.cells g.cursor.1 g.cursor.2 with
                value := some num, marks := fun _ => false }).is_solved
          then GameState.Won else g.state } := by
  unfold Game.handle_input
  rw [if_neg (not_not_intro h1)]
  dsimp only
  rw [if_neg h2, h3]

/-- Explicit form of a Pencil-mode entry (model.rs lines 253-257). -/
theorem handle_input_pencil_eq {g : Game} {num : Nat}
    (h1 : 1 ≤ num ∧ num ≤ 6)
    (h2 : ¬(g.grid.cells g.cursor.1 g.cursor.2).is_fixed = true)
    (h3 : g.mode = InputMode.Pencil) :
    g.handle_input num =
      { g with
        grid := g.grid.setCell g.cursor.1 g.cursor.2
          { g.grid.cells g.cursor.1 g.cursor.2 with
            marks := fun i =>
              if i.val = num - 1
              then !(g.grid.cells g.cursor.1 g.cursor.2).marks i
              else (g.grid.cells g.cursor.1 g.cursor.2).marks i } } := by
  unfold Game.handle_input
  rw [if_neg (not_not_intro h1)]
  dsimp only
  rw [if_neg h2, h3]

/-- Explicit form of `clear_cell` on a non-fixed cursor cell. -/
theorem clear_cell_eq {g : Game}
    (h : ¬(g.grid.cells g.cursor.1 g.cursor.2).is_fixed = true) :
    g.clear_cell =
      { g with grid := (g.grid.setCell g.cursor.1 g.cursor.2
        { g.grid.cells g.cursor.1 g.cursor.2 with
          value := none, marks := fun _ => false }) } := by
  unfold Game.clear_cell
  dsimp only
  rw [if_neg h]

theorem clear_cell_noop {g : Game}
    (h : (g.grid.cells g.cursor.1 g.cursor.2).is_fixed = true) :
    g.clear_cell = g := by
  unfold Game.clear_cell
  dsimp only
  rw [if_pos h]

/-- A fixed cell is never touched by `handle_input`, whatever the digit and
mode: both mutation branches guard on the cursor cell not being fixed and
write only at the cursor. -/
theorem handle_input_fixed_cell {g : Game} {num : Nat} {r c : Fin 6}
    (h : (g.grid.cells r c).is_fixed = true) :
    (g.handle_input num).grid.cells r c = g.grid.cells r c := by
  by_cases h1 : 1 ≤ num ∧ num ≤ 6
  · by_cases h2 : (g.grid.cells g.cursor.1 g.cursor.2).is_fixed = true
    · rw [handle_input_noop (Or.inr h2)]
    · have hne : ¬(r = g.cursor.1 ∧ c = g.cursor.2) := by
        rintro ⟨e1, e2⟩
        rw [e1, e2] at h
        exact h2 h
      rcases h3 : g.mode with _ | _
      · rw [handle_input_normal_eq h1 h2 h3]
        exact setCell_other _ _ _ _ hne
      · rw [handle_input_pencil_eq h1 h2 h3]
        exact setCell_other _ _ _ _ hne
  · rw [handle_input_noop (Or.inl h1)]

/-- A fixed cell is never touched by `clear_cell`. -/
theorem clear_cell_fixed_cell {g : Game} {r c : Fin 6}
    (h : (g.grid.cells r c).is_fixed = true) :
    g.clear_cell.grid.cells r c = g.grid.cells r c := by
  by_cases h2 : (g.grid.cells g.cursor.1 g.cursor.2).is_fixed = true
  · rw [clear_cell_noop h2]
  · have hne : ¬(r = g.cursor.1 ∧ c = g.cursor.2) := by
      rintro ⟨e1, e2⟩
      rw [e1, e2] at h
      exact h2 h
    rw [clear_cell_eq h2]
    exact setCell_other _ _ _ _ hne

theorem toggle_mode_grid (g : Game) : g.toggle_mode.grid = g.grid := rfl

theorem move_cursor_grid {g g' : Game} {dr dc : Int}
    (h : g.move_cursor dr dc = some g') : g'.grid = g.grid := by
  unfold Game.move_cursor at h
  by_cases hb : -128 ≤ (g.cursor.1.val : Int) + dr ∧ (g.cursor.1.val : Int) + dr ≤ 127 ∧
      -128 ≤ (g.cursor.2.val : Int) + dc ∧ (g.cursor.2.val : Int) + dc ≤ 127
  · rw [if_pos hb] at h
    cases h
    rfl
  · rw [if_neg hb] at h
    cases h

/-- `handle_input` never changes any `is_fixed` flag. -/
theorem handle_input_is_fixed (g : Game) (num : Nat) (r c : Fin 6) :
    ((g.handle_input num).grid.cells r c).is_fixed = (g.grid.cells r c).is_fixed := by
  by_cases h1 : 1 ≤ num ∧ num ≤ 6
  · by_cases h2 : (g.grid.cells g.cursor.1 g.cursor.2).is_fixed = true
    · rw [handle_input_noop (Or.inr h2)]
    · by_cases hne : r = g.cursor.1 ∧ c = g.cursor.2
      · rcases h3 : g.mode with _ | _
        · rw [handle_input_normal_eq h1 h2 h3]
          dsimp only
          rw [hne.1, hne.2, setCell_same]
        · rw [handle_input_pencil_eq h1 h2 h3]
          dsimp only
          rw [hne.1, hne.2, setCell_same]
      · rcases h3 : g.mode with _ | _
        · rw [handle_input_normal_eq h1 h2 h3]
          dsimp only
          rw [setCell_other _ _ _ _ hne]
        · rw [handle_input_pencil_eq h1 h2 h3]
          dsimp only
          rw [setCell_other _ _ _ _ hne]
  · rw [handle_input_noop (Or.inl h1)]

/-- `clear_cell` never changes any `is_fixed` flag. -/
theorem clear_cell_is_fixed (g : Game) (r c : Fin 6) :
    (g.clear_cell.grid.cells r c).is_fixed = (g.grid.cells r c).is_fixed := by
  by_cases h2 : (g.grid.cells g.cursor.1 g.cursor.2).is_fixed = true
  · rw [clear_cell_noop h2]
  · by_cases hne : r = g.cursor.1 ∧ c = g.cursor.2
    · rw [clear_cell_eq h2]
      dsimp only
      rw [hne.1, hne.2, setCell_same]
    · rw [clear_cell_eq h2]
      dsimp only
      rw [setCell_other _ _ _ _ hne]

/-- `handle_input` keeps a fixed cell's value present. -/
theorem handle_input_value_isSome {g : Game} {num : Nat} {r c : Fin 6}
    (hinv : (g.grid.cells r c).is_fixed = true →
      ((g.grid.cells r c).value).isSome = true)
    (hfix : ((g.handle_input num).grid.cells r c).is_fixed = true) :
    (((g.handle_input num).grid.cells r c).value).isSome = true := by
  have hold : (g.grid.cells r c).is_fixed = true := by
    rw [← handle_input_is_fixed g num r c]
    exact hfix
  rw [handle_input_fixed_cell hold]
  exact hinv hold

/-- `clear_cell` keeps a fixed cell's value present. -/
theorem clear_cell_value_isSome {g : Game} {r c : Fin 6}
    (hinv : (g.grid.cells r c).is_fixed = true →
      ((g.grid.cells r c).value).isSome = true)
    (hfix : (g.clear_cell.grid.cells r c).is_fixed = true) :
    ((g.clear_cell.grid.cells r c).value).isSome = true := by
  have hold : (g.grid.cells r c).is_fixed = true := by
    rw [← clear_cell_is_fixed g r c]
    exact hfix
  rw [clear_cell_fixed_cell hold]
  exact hinv hold

theorem handle_input_cursor (g : Game) (num : Nat) :
    (g.handle_input num).cursor = g.cursor := by
  by_cases h1 : 1 ≤ num ∧ num ≤ 6
  · by_cases h2 : (g.grid.cells g.cursor.1 g.cursor.2).is_fixed = true
    · rw [handle_input_noop (Or.inr h2)]
    · rcases h3 : g.mode with _ | _
      · rw [handle_input_normal_eq h1 h2 h3]
      · rw [handle_input_pencil_eq h1 h2 h3]
  · rw [handle_input_noop (Or.inl h1)]

theorem handle_input_mode (g : Game) (num : Nat) :
    (g.handle_input num).mode = g.mode := by
  by_cases h1 : 1 ≤ num ∧ num ≤ 6
  · by_cases h2 : (g.grid.cells g.cursor.1 g.cursor.2).is_fixed = true
    · rw [handle_input_noop (Or.inr h2)]
    · rcases h3 : g.mode with _ | _
      · rw [handle_input_normal_eq h1 h2 h3]
        exact h3
      · rw [handle_input_pencil_eq h1 h2 h3]
        exact h3
  · rw [handle_input_noop (Or.inl h1)]

theorem handle_input_solution (g : Game) (num : Nat) :
    (g.handle_input num).solution = g.solution := by
  by_cases h1 : 1 ≤ num ∧ num ≤ 6
  · by_cases h2 : (g.grid.cells g.cursor.1 g.cursor.2).is_fixed = true
    · rw [handle_input_noop (Or.inr h2)]
    · rcases h3 : g.mode with _ | _
      · rw [handle_input_normal_eq h1 h2 h3]
      · rw [handle_input_pencil_eq h1 h2 h3]
  · rw [handle_input_noop (Or.inl h1)]

/-- The fixed-implies-filled invariant holds in every reachable state. -/
theorem reachable_fixedValuePresent {g : Game} (h : Reachable g) :
    FixedValuePresent g := by
  induction h with
  | init g hinit =>
    obtain ⟨sh, t, picks, hn⟩ := hinit
    intro r c hf
    exact ((game_new_spec hn).2.2.1 r c).mpr hf
  | move g g' dr dc hre hmv ih =>
    intro r c
    rw [move_cursor_grid hmv]
    exact ih r c
  | input g num hre ih =>
    exact fun r c => handle_input_value_isSome (ih r c)
  | clear g hre ih =>
    exact fun r c => clear_cell_value_isSome (ih r c)
  | toggle g hre ih =>
    intro r c
    rw [toggle_mode_grid]
    exact ih r c

theorem digitsT_getD_range (s : Nat) :
    1 ≤ digitsT.getD s 1 ∧ digitsT.getD s 1 ≤ 6 := by
  rcases Nat.lt_or_ge s digitsT.length with hs | hs
  · have hmem : digitsT.getD s 1 ∈ digitsT := by
      rw [List.getD_eq_getElem digitsT 1 hs]
      exact List.getElem_mem hs
    have hall : ∀ n ∈ digitsT, 1 ≤ n ∧ n ≤ 6 := by decide
    exact hall _ hmem
  · rw [List.getD_eq_default digitsT 1 hs]
    exact ⟨le_refl 1, by omega⟩

theorem shO_range : ∀ s : Nat, ∀ n ∈ shO s, 1 ≤ n ∧ n ≤ 6 := by
  intro s n hn
  have he : n = digitsT.getD s 1 := by
    simpa [shO] using hn
  rw [he]
  exact digitsT_getD_range s

theorem cellsInRange_gFullT : cellsInRange gFullT := by
  intro r c v hv
  have h2 : some (Tval r c) = some v := hv
  cases h2
  revert r c
  decide

/-- C1 (counterexample): the claim quantifies over every grid, but
`fill_randomly` succeeds immediately on any grid with no empty cell,
whatever its contents: on the full all-nines grid `gBad` it returns success
(the grid unchanged) even though the board violates the validity invariant
and holds digits outside 1..6.  The success-implies-valid property therefore
needs the starting grid's filled cells to be valid and in range. -/
theorem fill_randomly_success_valid_cex :
    Grid.fill_randomly gBad shO 0 = (some gBad, 0) ∧
    gBad.is_full = true ∧ ¬SpecValid gBad ∧ ¬cellsInRange gBad := by
  refine ⟨rfl, by decide, by decide, fun h => ?_⟩
  have h9 := h 0 0 9 rfl
  omega

/-- C1 (amended): for every grid whose current cells satisfy the validity
invariant with digits in 1..6 (in particular the empty grid `Game::new`
passes in), if `fill_randomly` succeeds — under any rng oracle producing
digits from 1..6, as the source's shuffles of [1,2,3,4,5,6] do — then the
resulting grid is full, every cell holds a digit in 1..6, and the validity
invariant holds for every row, column, and region. -/
theorem fill_randomly_success_valid (g : Grid) (sh : Nat → List Nat) (t : Nat)
    (g' : Grid) (t' : Nat)
    (hval : SpecValid g) (hrange : cellsInRange g)
    (hsh : ∀ s : Nat, ∀ n ∈ sh s, 1 ≤ n ∧ n ≤ 6)
    (h : g.fill_randomly sh t = (some g', t')) :
    g'.is_full = true ∧ SpecValid g' ∧ cellsInRange g' := by
  have := fillFuel_sound 37 g sh t g' t' hval hrange hsh h
  exact this

theorem fill_randomly_success_valid_witness :
    SpecValid gFullT ∧ cellsInRange gFullT ∧
    (∀ s : Nat, ∀ n ∈ shO s, 1 ≤ n ∧ n ≤ 6) ∧
    Grid.fill_randomly gFullT shO 0 = (some gFullT, 0) ∧
    (gFullT.is_full = true ∧ SpecValid gFullT ∧ cellsInRange gFullT) :=
  ⟨by decide, cellsInRange_gFullT, shO_range, rfl,
    fill_randomly_success_valid gFullT shO 0 gFullT 0 (by decide)
      cellsInRange_gFullT shO_range rfl⟩

/-- C2: `is_solved` is true exactly when the grid is full and the spec's
pairwise validity invariant (distinct cells sharing a row, column, or region
never hold the same value) holds; in particular a full-but-invalid grid is
not solved. -/
theorem is_solved_iff_spec (g : Grid) :
    g.is_solved = true ↔ g.is_full = true ∧ SpecValid g :=
  is_solved_iff_full_and_specValid g

/-- C3: every game produced by `Game::new` has exactly 16 filled and 20
empty cells, and a cell is filled exactly when it is marked fixed (so every
remaining filled cell is a fixed clue and every emptied cell is not fixed).
Picks that hit an already-empty cell do not count toward the quota: the
carve loop counts exactly the picks it empties, which is what makes the
final removed count of 20 coincide with the number of empty cells. -/
theorem game_new_carving (sh : Nat → List Nat) (t : Nat)
    (picks : List (Fin 6 × Fin 6)) (game : Game)
    (h : Game.new sh t picks = some game) :
    filledCount game.grid = 16 ∧ emptyCount game.grid = 20 ∧
    (∀ r c : Fin 6, ((game.grid.cells r c).value).isSome = true ↔
      (game.grid.cells r c).is_fixed = true) := by
  have hs := game_new_spec h
  exact ⟨hs.1, hs.2.1, hs.2.2.1⟩

theorem game_new_carving_witness :
    Game.new shO 0 picksO = some gameW ∧
    (filledCount gameW.grid = 16 ∧ emptyCount gameW.grid = 20 ∧
    (∀ r c : Fin 6, ((gameW.grid.cells r c).value).isSome = true ↔
      (gameW.grid.cells r c).is_fixed = true)) :=
  ⟨rfl, game_new_carving shO 0 picksO gameW rfl⟩

/-- C4 (counterexample): two failures of the claim as stated.  First, an
incorrect entry (digit differing from the stored solution) can still set the
state to Won: `is_solved` checks the board against the Sudoku invariant, not
against the stored solution, so completing the board to a valid grid other
than the snapshot wins despite counting a mistake (here the stored solution
says 9 everywhere while entering 1 at (0,0) completes a valid board).
Second, when `mistakes` is already at u32::MAX, `saturating_add` leaves it
unchanged instead of incrementing it by exactly 1. -/
theorem handle_input_incorrect_digit_cex :
    gameX.mode = InputMode.Normal ∧
    (gameX.grid.cells gameX.cursor.1 gameX.cursor.2).is_fixed = false ∧
    gameX.solution gameX.cursor.1 gameX.cursor.2 ≠ 1 ∧
    (gameX.handle_input 1).state = GameState.Won ∧
    gameY.mistakes = u32Max ∧
    gameY.solution gameY.cursor.1 gameY.cursor.2 ≠ 1 ∧
    (gameY.handle_input 1).mistakes = gameY.mistakes ∧
    (gameY.handle_input 1).mistakes ≠ gameY.mistakes + 1 := by
  refine ⟨rfl, rfl, by decide, by decide, rfl, by decide, by decide, by decide⟩

/-- C4 (amended): in Normal mode, on a non-fixed cursor cell, a digit in
1..6 that differs from the stored solution is still stored in the cell; the
mistakes counter becomes `min (mistakes + 1) u32::MAX` (an increment by
exactly 1 whenever it is below the cap); and the state becomes Won exactly
when the resulting board is solved — which cannot be ruled out for an
incorrect entry, because a board can be completed to a valid grid other than
the stored solution — and is left unchanged otherwise. -/
theorem handle_input_incorrect_digit (g : Game) (num : Nat)
    (hmode : g.mode = InputMode.Normal)
    (hfix : ¬(g.grid.cells g.cursor.1 g.cursor.2).is_fixed = true)
    (hrange : 1 ≤ num ∧ num ≤ 6)
    (hwrong : g.solution g.cursor.1 g.cursor.2 ≠ num) :
    ((g.handle_input num).grid.cells g.cursor.1 g.cursor.2).value = some num ∧
    (g.handle_input num).mistakes = min (g.mistakes + 1) u32Max ∧
    (g.handle_input num).state =
      (if (g.handle_input num).grid.is_solved = true then GameState.Won
       else g.state) := by
  have hcme : g.is_correct_move g.cursor.1 g.cursor.2 num = false := by
    unfold Game.is_correct_move
    exact beq_eq_false_iff_ne.mpr hwrong
  rw [handle_input_normal_eq hrange hfix hmode]
  refine ⟨?_, ?_, ?_⟩
  · rw [setCell_same]
  · dsimp only
    rw [hcme]
    rfl
  · rfl

theorem handle_input_incorrect_digit_witness :
    gameX.mode = InputMode.Normal ∧
    ¬(gameX.grid.cells gameX.cursor.1 gameX.cursor.2).is_fixed = true ∧
    (1 ≤ 1 ∧ (1 : Nat) ≤ 6) ∧
    gameX.solution gameX.cursor.1 gameX.cursor.2 ≠ 1 ∧
    (((gameX.handle_input 1).grid.cells gameX.cursor.1 gameX.cursor.2).value
        = some 1 ∧
      (gameX.handle_input 1).mistakes = min (gameX.mistakes + 1) u32Max ∧
      (gameX.handle_input 1).state =
        (if (gameX.handle_input 1).grid.is_solved = true then GameState.Won
         else gameX.state)) :=
  ⟨rfl, by decide, by decide, by decide,
    handle_input_incorrect_digit gameX 1 rfl (by decide) (by decide) (by decide)⟩

/-- C5 (counterexample): the claim promises `clamp(old + delta)` for every
delta, but the i8 intermediate `cursor as i8 + dr` overflows for 127 at row
5 (5 + 127 = 132 > i8::MAX): instead of moving to clamp(132) = 5 the call
overflows (a panic under the default debug profile; under release wrapping
it would land on 0 — either way not the claimed clamp). -/
theorem move_cursor_clamps_cex :
    gameZ.cursor = ((5 : Fin 6), (5 : Fin 6)) ∧
    gameZ.move_cursor 127 0 = none := by
  refine ⟨rfl, by decide⟩

/-- C5 (amended): whenever the i8 sums `cursor + delta` stay within
[-128, 127] (in particular for all deltas in [-122, 122], covering the UI's
±1), `move_cursor` succeeds and sets each coordinate independently to the
old coordinate plus the delta clamped into [0, 5], changing nothing else.
From (0,0) with deltas (-1,-1) the cursor stays at (0,0); from (5,5) with
(1,1) it stays at (5,5). -/
theorem move_cursor_clamps (g : Game) (dr dc : Int)
    (h1 : -128 ≤ (g.cursor.1.val : Int) + dr)
    (h2 : (g.cursor.1.val : Int) + dr ≤ 127)
    (h3 : -128 ≤ (g.cursor.2.val : Int) + dc)
    (h4 : (g.cursor.2.val : Int) + dc ≤ 127) :
    g.move_cursor dr dc =
      some { g with cursor := (clampFin ((g.cursor.1.val : Int) + dr),
                               clampFin ((g.cursor.2.val : Int) + dc)) } := by
  unfold Game.move_cursor
  rw [if_pos ⟨h1, h2, h3, h4⟩]

theorem move_cursor_clamps_witness :
    (-128 ≤ ((gameZ.cursor.1.val : Int) + 1) ∧
     ((gameZ.cursor.1.val : Int) + 1) ≤ 127 ∧
     -128 ≤ ((gameZ.cursor.2.val : Int) + 1) ∧
     ((gameZ.cursor.2.val : Int) + 1) ≤ 127) ∧
    gameZ.move_cursor 1 1 =
      some { gameZ with cursor := (clampFin ((gameZ.cursor.1.val : Int) + 1),
                                   clampFin ((gameZ.cursor.2.val : Int) + 1)) } ∧
    clampFin ((gameZ.cursor.1.val : Int) + 1) = (5 : Fin 6) :=
  ⟨⟨by decide, by decide, by decide, by decide⟩,
    move_cursor_clamps gameZ 1 1 (by decide) (by decide) (by decide) (by decide),
    by decide⟩

/-- C6 (counterexample): the claim says no mutating call ever hits an
arithmetic overflow on any input in any reachable state, but from the
reachable state `gameW2` (cursor at (1,1)) the call `move_cursor(127, 0)`
overflows the i8 intermediate (1 + 127 = 128 > i8::MAX). -/
theorem mutating_calls_total_cex :
    Reachable gameW2 ∧ gameW2.cursor = ((1 : Fin 6), (1 : Fin 6)) ∧
    gameW2.move_cursor 127 0 = none := by
  refine ⟨Reachable.move gameW gameW2 1 1
    (Reachable.init gameW ⟨shO, 0, picksO, rfl⟩) rfl, by decide, by decide⟩

/-- C6 (amended): `handle_input`, `clear_cell` and `toggle_mode` are total
for every state and every input — in this embedding they return a `Game` for
all arguments, with invalid inputs silently ignored — and `move_cursor`
succeeds (no overflow, no panic) whenever the i8 sums `cursor + delta` stay
within [-128, 127], which covers all deltas in [-122, 122] and in particular
the ±1 steps the UI issues; only extreme deltas can overflow the i8
intermediate. -/
theorem mutating_calls_total (g : Game) (dr dc : Int)
    (h1 : -128 ≤ (g.cursor.1.val : Int) + dr)
    (h2 : (g.cursor.1.val : Int) + dr ≤ 127)
    (h3 : -128 ≤ (g.cursor.2.val : Int) + dc)
    (h4 : (g.cursor.2.val : Int) + dc ≤ 127) :
    ∃ g' : Game, g.move_cursor dr dc = some g' := by
  unfold Game.move_cursor
  rw [if_pos ⟨h1, h2, h3, h4⟩]
  exact ⟨_, rfl⟩

theorem mutating_calls_total_witness :
    (-128 ≤ ((gameX.cursor.1.val : Int) + (-1)) ∧
     ((gameX.cursor.1.val : Int) + (-1)) ≤ 127 ∧
     -128 ≤ ((gameX.cursor.2.val : Int) + (-1)) ∧
     ((gameX.cursor.2.val : Int) + (-1)) ≤ 127) ∧
    (∃ g' : Game, gameX.move_cursor (-1) (-1) = some g') :=
  ⟨⟨by decide, by decide, by decide, by decide⟩,
    mutating_calls_total gameX (-1) (-1) (by decide) (by decide) (by decide)
      (by decide)⟩

/-- C7: `handle_input` is a no-op — the entire game state is returned
unchanged — whenever the digit is outside 1..6 or the cursor's cell is
fixed, regardless of the current input mode. -/
theorem handle_input_invalid_noop (g : Game) (num : Nat)
    (h : ¬(1 ≤ num ∧ num ≤ 6) ∨
      (g.grid.cells g.cursor.1 g.cursor.2).is_fixed = true) :
    g.handle_input num = g :=
  handle_input_noop h

theorem handle_input_invalid_noop_witness :
    (¬((1 : Nat) ≤ 0 ∧ (0 : Nat) ≤ 6) ∨
      (gameX.grid.cells gameX.cursor.1 gameX.cursor.2).is_fixed = true) ∧
    gameX.handle_input 0 = gameX :=
  ⟨Or.inl (by decide), handle_input_invalid_noop gameX 0 (Or.inl (by decide))⟩

/-- C8: in every state reachable from construction, every cell marked fixed
holds a value; and no public mutating call ever changes a fixed cell — its
value, marks and fixed flag are all preserved (for `handle_input` and
`clear_cell` the whole cell is unchanged; `toggle_mode` never touches the
grid; a successful `move_cursor` never touches the grid). -/
theorem fixed_cell_invariant (g : Game) (h : Reachable g) :
    (∀ r c : Fin 6, (g.grid.cells r c).is_fixed = true →
      ((g.grid.cells r c).value).isSome = true) ∧
    (∀ (num : Nat) (r c : Fin 6), (g.grid.cells r c).is_fixed = true →
      (g.handle_input num).grid.cells r c = g.grid.cells r c) ∧
    (∀ r c : Fin 6, (g.grid.cells r c).is_fixed = true →
      g.clear_cell.grid.cells r c = g.grid.cells r c) ∧
    g.toggle_mode.grid = g.grid ∧
    (∀ (dr dc : Int) (g' : Game), g.move_cursor dr dc = some g' →
      g'.grid = g.grid) :=
  ⟨reachable_fixedValuePresent h,
    fun _ _ _ hf => handle_input_fixed_cell hf,
    fun _ _ hf => clear_cell_fixed_cell hf,
    toggle_mode_grid g,
    fun _ _ _ hm => move_cursor_grid hm⟩

theorem fixed_cell_invariant_witness :
    Reachable gameW ∧
    ((∀ r c : Fin 6, (gameW.grid.cells r c).is_fixed = true →
      ((gameW.grid.cells r c).value).isSome = true) ∧
    (∀ (num : Nat) (r c : Fin 6), (gameW.grid.cells r c).is_fixed = true →
      (gameW.handle_input num).grid.cells r c = gameW.grid.cells r c) ∧
    (∀ r c : Fin 6, (gameW.grid.cells r c).is_fixed = true →
      gameW.clear_cell.grid.cells r c = gameW.grid.cells r c) ∧
    gameW.toggle_mode.grid = gameW.grid ∧
    (∀ (dr dc : Int) (g' : Game), gameW.move_cursor dr dc = some g' →
      g'.grid = gameW.grid)) :=
  ⟨Reachable.init gameW ⟨shO, 0, picksO, rfl⟩,
    fixed_cell_invariant gameW (Reachable.init gameW ⟨shO, 0, picksO, rfl⟩)⟩

/-- C9 (counterexample): the marks/value exclusion is not an invariant of
reachable states.  Pencil-mode input toggles a mark even on a cell that
already holds a value (it only checks the fixed flag): after entering 1 at
the empty non-fixed cell (0,0) of a fresh game, toggling to Pencil mode and
pressing 1 again, the cell holds both a value and a set pencil mark. -/
theorem marks_value_exclusion_cex :
    Reachable gameW3 ∧
    ((gameW3.grid.cells 0 0).value).isSome = true ∧
    (gameW3.grid.cells 0 0).marks 0 = true := by
  have h0 : Reachable gameW := Reachable.init gameW ⟨shO, 0, picksO, rfl⟩
  have h1 := Reachable.input gameW 1 h0
  have h2 := Reachable.toggle (gameW.handle_input 1) h1
  have h3 := Reachable.input ((gameW.handle_input 1).toggle_mode) 1 h2
  exact ⟨h3, by decide, by decide⟩

/-- C9 (amended): setting a value through Normal-mode `handle_input` does
clear all pencil marks on that cell (so a value entered in Normal mode never
coexists with stale marks); but the exclusion is not preserved as an
invariant, because Pencil-mode input toggles marks even on a cell that
currently holds a value. -/
theorem normal_set_clears_marks (g : Game) (num : Nat)
    (hmode : g.mode = InputMode.Normal)
    (hfix : ¬(g.grid.cells g.cursor.1 g.cursor.2).is_fixed = true)
    (hrange : 1 ≤ num ∧ num ≤ 6) :
    ((g.handle_input num).grid.cells g.cursor.1 g.cursor.2).value = some num ∧
    (∀ i : Fin 6,
      ((g.handle_input num).grid.cells g.cursor.1 g.cursor.2).marks i = false) := by
  rw [handle_input_normal_eq hrange hfix hmode]
  refine ⟨?_, fun i => ?_⟩
  · rw [setCell_same]
  · rw [setCell_same]

theorem normal_set_clears_marks_witness :
    gameX.mode = InputMode.Normal ∧
    ¬(gameX.grid.cells gameX.cursor.1 gameX.cursor.2).is_fixed = true ∧
    ((1 : Nat) ≤ 1 ∧ (1 : Nat) ≤ 6) ∧
    (((gameX.handle_input 1).grid.cells gameX.cursor.1 gameX.cursor.2).value
        = some 1 ∧
    (∀ i : Fin 6,
      ((gameX.handle_input 1).grid.cells gameX.cursor.1 gameX.cursor.2).marks i
        = false)) :=
  ⟨rfl, by decide, by decide,
    normal_set_clears_marks gameX 1 rfl (by decide) (by decide)⟩

/-- C10: in Pencil mode on a non-fixed cursor cell, a digit in 1..6 toggles
exactly pencil mark number num (index num-1) on that cell — also when the
cell currently holds a value — and leaves the cell's value, the mistakes
counter, the mode, the cursor and the game state unchanged. -/
theorem pencil_toggles_mark (g : Game) (num : Nat)
    (hmode : g.mode = InputMode.Pencil)
    (hfix : ¬(g.grid.cells g.cursor.1 g.cursor.2).is_fixed = true)
    (hrange : 1 ≤ num ∧ num ≤ 6) :
    (∀ i : Fin 6,
      ((g.handle_input num).grid.cells g.cursor.1 g.cursor.2).marks i =
        (if i.val = num - 1 then !(g.grid.cells g.cursor.1 g.cursor.2).marks i
         else (g.grid.cells g.cursor.1 g.cursor.2).marks i)) ∧
    ((g.handle_input num).grid.cells g.cursor.1 g.cursor.2).value =
      (g.grid.cells g.cursor.1 g.cursor.2).value ∧
    (g.handle_input num).mistakes = g.mistakes ∧
    (g.handle_input num).mode = g.mode ∧
    (g.handle_input num).cursor = g.cursor ∧
    (g.handle_input num).state = g.state := by
  rw [handle_input_pencil_eq hrange hfix hmode]
  refine ⟨fun i => ?_, ?_, rfl, rfl, rfl, rfl⟩
  · rw [setCell_same]
  · rw [setCell_same]

theorem pencil_toggles_mark_witness :
    ((gameP.grid.cells gameP.cursor.1 gameP.cursor.2).value).isSome = true ∧
    gameP.mode = InputMode.Pencil ∧
    ¬(gameP.grid.cells gameP.cursor.1 gameP.cursor.2).is_fixed = true ∧
    ((1 : Nat) ≤ 3 ∧ (3 : Nat) ≤ 6) ∧
    ((∀ i : Fin 6,
      ((gameP.handle_input 3).grid.cells gameP.cursor.1 gameP.cursor.2).marks i =
        (if i.val = 3 - 1
         then !(gameP.grid.cells gameP.cursor.1 gameP.cursor.2).marks i
         else (gameP.grid.cells gameP.cursor.1 gameP.cursor.2).marks i)) ∧
    ((gameP.handle_input 3).grid.cells gameP.cursor.1 gameP.cursor.2).value =
      (gameP.grid.cells gameP.cursor.1 gameP.cursor.2).value ∧
    (gameP.handle_input 3).mistakes = gameP.mistakes ∧
    (gameP.handle_input 3).mode = gameP.mode ∧
    (gameP.handle_input 3).cursor = gameP.cursor ∧
    (gameP.handle_input 3).state = gameP.state) :=
  ⟨by decide, rfl, by decide, by decide,
    pencil_toggles_mark gameP 3 rfl (by decide) (by decide)⟩
